import Mathlib

/-!
Verification of the HIRE service-marketplace core: the booking lifecycle
state machine (app.py request handlers) and the provider matching and
scoring engine (services.py), shallowly embedded.

Database rows are Lean structures; the tables a handler touches are lists
inside a `DB` record. Each Flask handler becomes a function from the
caller identity, its request parameters and the pre-state to
`Except Err DB` (`flash` + redirect failure paths become errors, and an
error leaves the state unchanged, as in the source where all mutation
follows the precondition checks). Python floats are modelled as `ℚ` for
stored decimal data and as `ℝ` inside the trigonometric distance
computation; Python truthiness on nullable numeric columns (None or 0 is
falsy) is modelled explicitly.
-/

namespace HIRE

/-- Provider profile (models.Provider as used by app.py / services.py). -/
structure Provider where
  id : ℕ
  experience_years : ℕ
  is_available : Bool
  is_verified : Bool
  avg_rating : Option ℚ
deriving DecidableEq

/-- A provider's offering of a service category at a price
(models.ProviderCategory). -/
structure ProviderCategory where
  provider_id : ℕ
  category_id : ℕ
  price_rate : ℚ
deriving DecidableEq

/-- An address row; latitude and longitude are nullable, since geocoding
failures are non-fatal. -/
structure Address where
  customer_id : Option ℕ
  provider_id : Option ℕ
  latitude : Option ℚ
  longitude : Option ℚ
deriving DecidableEq

/-- A booking row (models.Booking). `status` is one of the strings
"pending", "confirmed", "completed", "cancelled", exactly as in the
source. -/
structure Booking where
  id : ℕ
  customer_id : ℕ
  provider_id : ℕ
  category_id : ℕ
  address_id : ℕ
  booking_date : ℤ
  time_slot : String
  status : String
  rating : Option ℕ
  rating_comment : Option String
deriving DecidableEq

/-- A payment ledger row (models.Payment). -/
structure Payment where
  booking_id : ℕ
  amount : ℚ
  payment_method : String
  transaction_id : String
  status : String
deriving DecidableEq

/-- The logged-in user returned by get_current_user: a customer id or a
provider id (or none when not logged in, modelled by `Option User`). -/
inductive User where
  | customer (id : ℕ)
  | provider (id : ℕ)
deriving DecidableEq

/-- The database state touched by the booking state machine. -/
structure DB where
  providers : List Provider
  bookings : List Booking
  payments : List Payment
  provider_categories : List ProviderCategory
  addresses : List Address
deriving DecidableEq

/-- Failure outcomes of a request handler: each flash-and-redirect
failure path in app.py, identified by which precondition failed. -/
inductive Err where
  | notLoggedIn
  | notFound
  | notAuthorized
  | wrongState
  | missingField
  | invalidBooking
deriving DecidableEq

/-- Round a rational to the nearest integer, ties to even, as Python's
round does on floats. -/
def roundHalfToEven (q : ℚ) : ℤ :=
  if q - Int.floor q < 1/2 then Int.floor q
  else if 1/2 < q - Int.floor q then Int.floor q + 1
  else if Int.floor q % 2 = 0 then Int.floor q else Int.floor q + 1

/-- Python round(x, 2): round to two decimal places. -/
def round2 (q : ℚ) : ℚ := (roundHalfToEven (q * 100) : ℚ) / 100

/-- The bookings scanned by rate_booking when recomputing a provider's
average: provider's bookings with status "completed" and a non-null
rating (Booking.query.filter_by(provider_id, status="completed")
.filter(Booking.rating.isnot(None))). -/
def ratedOf (l : List Booking) (pid : ℕ) : List Booking :=
  l.filter (fun bk => bk.provider_id == pid && bk.status == "completed" && bk.rating.isSome)

/-- total_rating / len(rated_bookings) from rate_booking (a rating is an
int; `getD 0` is never hit on the filtered list). -/
def ratingMean (l : List Booking) : ℚ :=
  ((l.map (fun bk => ((bk.rating.getD 0 : ℕ) : ℚ))).sum) / l.length

/-- app.py create_booking (POST path). The caller models
get_current_user; `category_id`, `address_id`, `booking_date`,
`time_slot` are the form fields (`none` = missing/falsy, failing the
`all([...])` check); `new_id` models the autoincrement primary key. The
handler performs no check on the booking date beyond parsing it. -/
def create_booking (caller : Option User) (provider_id : ℕ)
    (category_id address_id : Option ℕ) (booking_date : Option ℤ)
    (time_slot : Option String) (new_id : ℕ) (db : DB) : Except Err DB :=
  match caller with
  | some (User.customer c) =>
    match db.providers.find? (fun p => p.id == provider_id) with
    | none => .error .notFound
    | some _ =>
      match category_id, address_id, booking_date, time_slot with
      | some cat, some addr, some d, some ts =>
        .ok { db with bookings := db.bookings ++
          [{ id := new_id, customer_id := c, provider_id := provider_id,
             category_id := cat, address_id := addr, booking_date := d,
             time_slot := ts, status := "pending", rating := none,
             rating_comment := none }] }
      | _, _, _, _ => .error .missingField
  | _ => .error .notLoggedIn

/-- app.py payment_process (POST path): the pending-to-confirmed
transition. `method` is the payment_method form field; `txid` models the
random transaction id. Checks, in source order: logged-in customer,
booking exists, caller owns it, status is "pending", an offering exists
for (provider, category), a payment method was chosen; then appends one
Payment at the offering's price and sets the status to "confirmed". -/
def payment_process (caller : Option User) (booking_id : ℕ)
    (method : Option String) (txid : String) (db : DB) : Except Err DB :=
  match caller with
  | some (User.customer c) =>
    match db.bookings.find? (fun b => b.id == booking_id) with
    | none => .error .notFound
    | some b =>
      if b.customer_id ≠ c then .error .notAuthorized
      else if b.status ≠ "pending" then .error .wrongState
      else
        match db.provider_categories.find?
            (fun pc => pc.provider_id == b.provider_id && pc.category_id == b.category_id) with
        | none => .error .invalidBooking
        | some pc =>
          match method with
          | none => .error .missingField
          | some m =>
            .ok { db with
              payments := db.payments ++
                [{ booking_id := booking_id, amount := pc.price_rate,
                   payment_method := m, transaction_id := txid,
                   status := "successful" }],
              bookings := db.bookings.map (fun bk =>
                if bk.id == booking_id then { bk with status := "confirmed" } else bk) }
  | _ => .error .notLoggedIn

/-- app.py cancel_booking: pending/confirmed to cancelled, by the owning
customer or the owning provider. -/
def cancel_booking (caller : Option User) (booking_id : ℕ) (db : DB) : Except Err DB :=
  match caller with
  | none => .error .notLoggedIn
  | some u =>
    match db.bookings.find? (fun b => b.id == booking_id) with
    | none => .error .notFound
    | some b =>
      if (match u with
          | User.customer c => b.customer_id != c
          | User.provider p => b.provider_id != p) then .error .notAuthorized
      else if b.status ≠ "pending" ∧ b.status ≠ "confirmed" then .error .wrongState
      else
        .ok { db with bookings := db.bookings.map (fun bk =>
          if bk.id == booking_id then { bk with status := "cancelled" } else bk) }

/-- app.py complete_booking: the confirmed-to-completed transition, by
the owning provider. -/
def complete_booking (caller : Option User) (booking_id : ℕ) (db : DB) : Except Err DB :=
  match caller with
  | some (User.provider p) =>
    match db.bookings.find? (fun b => b.id == booking_id) with
    | none => .error .notFound
    | some b =>
      if b.provider_id ≠ p then .error .notAuthorized
      else if b.status ≠ "confirmed" then .error .wrongState
      else
        .ok { db with bookings := db.bookings.map (fun bk =>
          if bk.id == booking_id then { bk with status := "completed" } else bk) }
  | _ => .error .notLoggedIn

/-- app.py rate_booking: record a one-time rating on a completed booking
and recompute the provider's average rating by a full scan. The scan
runs over the bookings as already updated with the new rating (SQLAlchemy
autoflush makes the just-recorded rating visible to the query). A missing
provider row would crash the handler; modelled as an error. -/
def rate_booking (caller : Option User) (booking_id : ℕ)
    (rating : Option ℕ) (comment : Option String) (db : DB) : Except Err DB :=
  match caller with
  | some (User.customer c) =>
    match db.bookings.find? (fun b => b.id == booking_id) with
    | none => .error .notFound
    | some b =>
      if b.customer_id ≠ c then .error .notAuthorized
      else if b.status ≠ "completed" ∨ b.rating ≠ none then .error .wrongState
      else
        match rating with
        | none => .error .missingField
        | some v =>
          match db.providers.find? (fun p => p.id == b.provider_id) with
          | none => .error .notFound
          | some p =>
            let bookings' := db.bookings.map (fun bk =>
              if bk.id == booking_id then
                { bk with rating := some v, rating_comment := comment } else bk)
            let newAvg := round2 (ratingMean (ratedOf bookings' p.id))
            .ok { db with
              bookings := bookings',
              providers := db.providers.map (fun q =>
                if q.id == p.id then { q with avg_rating := some newAvg } else q) }
  | _ => .error .notLoggedIn

/-- One inbound request to the booking state machine. -/
inductive Op where
  | create (caller : Option User) (provider_id : ℕ) (category_id address_id : Option ℕ)
      (booking_date : Option ℤ) (time_slot : Option String) (new_id : ℕ)
  | confirm (caller : Option User) (booking_id : ℕ) (method : Option String) (txid : String)
  | cancel (caller : Option User) (booking_id : ℕ)
  | complete (caller : Option User) (booking_id : ℕ)
  | rate (caller : Option User) (booking_id : ℕ) (rating : Option ℕ) (comment : Option String)
deriving DecidableEq

/-- Dispatch one request. -/
def runOp (db : DB) : Op → Except Err DB
  | .create u pid cat addr d ts nid => create_booking u pid cat addr d ts nid db
  | .confirm u bid m txid => payment_process u bid m txid db
  | .cancel u bid => cancel_booking u bid db
  | .complete u bid => complete_booking u bid db
  | .rate u bid r cm => rate_booking u bid r cm db

/-- The state after one request: a failed request leaves the state
unchanged (all mutation in the handlers follows the checks). -/
def step (db : DB) (o : Op) : DB :=
  match runOp db o with
  | .ok db' => db'
  | .error _ => db

/-! ## services.py: distance, scoring, matching -/

/-- Degrees to radians (math.radians). -/
noncomputable def radians (x : ℝ) : ℝ := x * Real.pi / 180

/-- services.calculate_distance: great-circle distance via the haversine
formula, Earth radius 6371 km. -/
noncomputable def calculate_distance (lat1 lon1 lat2 lon2 : ℝ) : ℝ :=
  let rlat1 := radians lat1
  let rlon1 := radians lon1
  let rlat2 := radians lat2
  let rlon2 := radians lon2
  let dlon := rlon2 - rlon1
  let dlat := rlat2 - rlat1
  let a := Real.sin (dlat / 2) ^ 2 +
    Real.cos rlat1 * Real.cos rlat2 * Real.sin (dlon / 2) ^ 2
  let c := 2 * Real.arcsin (Real.sqrt a)
  c * 6371

/-- Dictionary lookup in the avg_prices map (an insertion-ordered dict,
modelled as an association list). -/
def lookupQ (m : List (ℕ × ℚ)) (k : ℕ) : Option ℚ :=
  (m.find? (fun e => e.1 == k)).map Prod.snd

/-- One iteration of the dict-building loop in find_matching_providers:
append pc.price_rate to the bucket of pc.category_id, creating the
bucket if absent. -/
def addPrice (m : List (ℕ × List ℚ)) (pc : ProviderCategory) : List (ℕ × List ℚ) :=
  if (m.find? (fun e => e.1 == pc.category_id)).isSome then
    m.map (fun e => if e.1 == pc.category_id then (e.1, e.2 ++ [pc.price_rate]) else e)
  else m ++ [(pc.category_id, [pc.price_rate])]

/-- The avg_prices dict of find_matching_providers: bucket priceRates by
category over the retrieved offerings, then replace each bucket by its
mean sum(prices)/len(prices). -/
def avgPricesOf (pcs : List ProviderCategory) : List (ℕ × ℚ) :=
  (pcs.foldl addPrice []).map (fun e => (e.1, e.2.sum / e.2.length))

/-- Rating component of calculate_provider_score (max 40): Python
truthiness on avg_rating means None and 0.0 both take the flat-20
default branch. -/
def ratingScore (p : Provider) : ℚ :=
  match p.avg_rating with
  | some r => if r = 0 then 20 else r / 5 * 40
  | none => 20

/-- Experience component (max 30): min(30, experience_years * 3). -/
def experienceScore (p : Provider) : ℚ :=
  min 30 ((p.experience_years : ℚ) * 3)

/-- Price-competitiveness component (max 30) of
calculate_provider_score: looks the provider's offering up in the
ProviderCategory table, then the category's average price in the
avg_prices dict; contributes nothing when either is missing or the
average is not positive. -/
def priceScore (p : Provider) (service_category_id : ℕ)
    (avg_prices : List (ℕ × ℚ)) (pc_table : List ProviderCategory) : ℚ :=
  match pc_table.find? (fun pc =>
      pc.provider_id == p.id && pc.category_id == service_category_id) with
  | none => 0
  | some pc =>
    match lookupQ avg_prices service_category_id with
    | none => 0
    | some avg_price =>
      if 0 < avg_price then
        if pc.price_rate / avg_price < 1 then
          30 * (1 - pc.price_rate / avg_price / 2)
        else max 0 (30 * (2 - pc.price_rate / avg_price))
      else 0

open Classical in
/-- Proximity bonus of calculate_provider_score: awarded only when the
customer address and the provider's address row both carry truthy
(non-null and nonzero) coordinates; the source guards are Python
truthiness tests `if addr and addr.latitude and addr.longitude`. -/
noncomputable def distanceBonus (p : Provider) (customer_address : Option Address)
    (addrs : List Address) : ℚ :=
  match customer_address with
  | none => 0
  | some ca =>
    match ca.latitude, ca.longitude with
    | some clat, some clon =>
      if clat = 0 ∨ clon = 0 then 0
      else
        match addrs.find? (fun a => a.provider_id == some p.id) with
        | none => 0
        | some pa =>
          match pa.latitude, pa.longitude with
          | some plat, some plon =>
            if plat = 0 ∨ plon = 0 then 0
            else
              let d := calculate_distance (clat : ℝ) (clon : ℝ) (plat : ℝ) (plon : ℝ)
              if d < 5 then 15 else if d < 10 then 10 else if d < 20 then 5 else 0
          | _, _ => 0
    | _, _ => 0

/-- services.calculate_provider_score: the four additive components, in
source order. -/
noncomputable def calculate_provider_score (p : Provider)
    (customer_address : Option Address) (service_category_id : ℕ)
    (avg_prices : List (ℕ × ℚ)) (pc_table : List ProviderCategory)
    (addrs : List Address) : ℚ :=
  ratingScore p + experienceScore p +
    priceScore p service_category_id avg_prices pc_table +
    distanceBonus p customer_address addrs

/-- Step (b) of find_matching_providers: providers referenced by the
category's offerings, filtered to available and verified, in the order
the provider table yields them. -/
def eligibleProviders (provider_table : List Provider)
    (pcs : List ProviderCategory) : List Provider :=
  provider_table.filter (fun p =>
    (pcs.map (fun pc => pc.provider_id)).contains p.id &&
      p.is_available && p.is_verified)

/-- Insert into a list already sorted by descending score, before the
first element of not-greater score. -/
def insertDesc (a : Provider × ℚ) : List (Provider × ℚ) → List (Provider × ℚ)
  | [] => [a]
  | x :: l => if x.2 ≤ a.2 then a :: x :: l else x :: insertDesc a l

/-- Python's list.sort(key=score, reverse=True): the stable descending
sort of the scored list (stable insertion sort; equal scores keep their
input order). -/
def sortDesc : List (Provider × ℚ) → List (Provider × ℚ)
  | [] => []
  | x :: l => insertDesc x (sortDesc l)

/-- services.find_matching_providers. The store round trips become list
parameters: `pc_table` and `provider_table` are the ProviderCategory and
Provider tables (the unspecified retrieval order of the provider query
is the table order), `addrs` the Address table read by the scorer. -/
noncomputable def find_matching_providers (customer_address : Option Address)
    (service_category_id : ℕ) (limit : ℕ) (pc_table : List ProviderCategory)
    (provider_table : List Provider) (addrs : List Address) : List Provider :=
  let provider_categories := pc_table.filter (fun pc => pc.category_id == service_category_id)
  if provider_categories = [] then []
  else
    let providers := eligibleProviders provider_table provider_categories
    if providers = [] then []
    else
      let avg_prices := avgPricesOf provider_categories
      let provider_scores := providers.map (fun p =>
        (p, calculate_provider_score p customer_address service_category_id
              avg_prices pc_table addrs))
      ((sortDesc provider_scores).map Prod.fst).take limit

/-! ## Concrete sample data used by witnesses and counterexamples -/

/-- A confirmed booking of customer 7 with provider 1. -/
def bC3 : Booking :=
  { id := 5, customer_id := 7, provider_id := 1, category_id := 2, address_id := 3,
    booking_date := 10, time_slot := "09:00-10:00", status := "confirmed",
    rating := none, rating_comment := none }

/-- A one-provider, one-booking database around `bC3`. -/
def dbC3 : DB :=
  { providers := [{ id := 1, experience_years := 4, is_available := true,
                    is_verified := true, avg_rating := none }],
    bookings := [bC3], payments := [], provider_categories := [], addresses := [] }

/-- The state after provider 1 completes booking 5 in `dbC3`. -/
def dbC3' : DB := { dbC3 with bookings := [{ bC3 with status := "completed" }] }

/-- A pending booking of customer 7 with provider 1 in category 2. -/
def bC2 : Booking := { bC3 with id := 6, status := "pending" }

/-- A database around `bC2` whose provider offers category 2 at 100. -/
def dbC2 : DB :=
  { providers := [{ id := 1, experience_years := 4, is_available := true,
                    is_verified := true, avg_rating := none }],
    bookings := [bC2], payments := [],
    provider_categories := [{ provider_id := 1, category_id := 2, price_rate := 100 }],
    addresses := [] }

/-- The state after customer 7 pays for booking 6 in `dbC2`. -/
def dbC2' : DB :=
  { dbC2 with
    payments := [{ booking_id := 6, amount := 100, payment_method := "card",
                   transaction_id := "HIRE-1", status := "successful" }],
    bookings := [{ bC2 with status := "confirmed" }] }

/-- Modelled from the spec: the create-transition precondition "future
date". The source has no server-side check of the booking date (only a
client-side min-date hint in the rendered form), so this notion exists
only in the spec's words: a date is in the future when it is strictly
after today. -/
def spec_dateInFuture (d today : ℤ) : Prop := today < d

/-- A database with provider 1 and no bookings, for create requests. -/
def dbC6 : DB :=
  { providers := [{ id := 1, experience_years := 4, is_available := true,
                    is_verified := true, avg_rating := none }],
    bookings := [], payments := [], provider_categories := [], addresses := [] }

/-- The booking produced by a create request dated day 5 (a past date
relative to day 1000). -/
def bC6new : Booking :=
  { id := 9, customer_id := 7, provider_id := 1, category_id := 2, address_id := 3,
    booking_date := 5, time_slot := "09:00-10:00", status := "pending",
    rating := none, rating_comment := none }

/-- The state after that create request succeeds in `dbC6`. -/
def dbC6' : DB := { dbC6 with bookings := [bC6new] }

/-- A cancelled booking of customer 7 with provider 1. -/
def bC7 : Booking := { bC3 with id := 9, status := "cancelled" }

/-- A database around the cancelled booking `bC7`. -/
def dbC7 : DB :=
  { providers := [{ id := 1, experience_years := 4, is_available := true,
                    is_verified := true, avg_rating := none }],
    bookings := [bC7], payments := [],
    provider_categories := [{ provider_id := 1, category_id := 2, price_rate := 100 }],
    addresses := [] }

/-- Every transition attempted on the cancelled booking 9, by its own
customer and provider. -/
def opsC7 : List Op :=
  [Op.confirm (some (User.customer 7)) 9 (some "card") "HIRE-2",
   Op.complete (some (User.provider 1)) 9,
   Op.cancel (some (User.customer 7)) 9,
   Op.rate (some (User.customer 7)) 9 (some 5) none]

/-- A completed, not yet rated booking of customer 7 with provider 1. -/
def bC1 : Booking := { bC3 with id := 8, status := "completed" }

/-- A database around `bC1`. -/
def dbC1 : DB :=
  { providers := [{ id := 1, experience_years := 4, is_available := true,
                    is_verified := true, avg_rating := none }],
    bookings := [bC1], payments := [], provider_categories := [], addresses := [] }

/-- The state after customer 7 rates booking 8 with 4 stars in `dbC1`. -/
def dbC1' : DB := step dbC1 (Op.rate (some (User.customer 7)) 8 (some 4) none)

/-- An unrated provider with no experience, offering category 7. -/
def pC4 : Provider :=
  { id := 1, experience_years := 0, is_available := true, is_verified := true,
    avg_rating := none }

/-- Provider 1 offers category 7 at price 100. -/
def pcC4 : ProviderCategory := { provider_id := 1, category_id := 7, price_rate := 100 }

/-- A customer address with latitude exactly 0 (on the equator) but a
present, nonzero longitude. -/
def caC10 : Address :=
  { customer_id := some 7, provider_id := none, latitude := some 0, longitude := some 10 }

/-- Provider 1's address, with both coordinates present and nonzero. -/
def paC10 : Address :=
  { customer_id := none, provider_id := some 1, latitude := some 5, longitude := some 6 }

/-- Two offerings for category 7, one of them at price 100 by provider 1
and one at price 50 by provider 2 (mean 75). -/
def pcsC8 : List ProviderCategory :=
  [{ provider_id := 1, category_id := 7, price_rate := 100 },
   { provider_id := 2, category_id := 7, price_rate := 50 }]

/-- An unrated, inexperienced, available, verified provider with id 1. -/
def pC5a : Provider :=
  { id := 1, experience_years := 0, is_available := true, is_verified := true,
    avg_rating := none }

/-- An identical provider except for its higher id 2. -/
def pC5b : Provider :=
  { id := 2, experience_years := 0, is_available := true, is_verified := true,
    avg_rating := none }

/-- Providers 1 and 2 both offer category 7 at the same price 100, so
both score identically. -/
def pcsC5 : List ProviderCategory :=
  [{ provider_id := 1, category_id := 7, price_rate := 100 },
   { provider_id := 2, category_id := 7, price_rate := 100 }]

/-! ## List lemmas -/

theorem find?_append_some {α : Type} (p : α → Bool) (l l2 : List α) (a : α)
    (h : l.find? p = some a) : (l ++ l2).find? p = some a := by
  rw [List.find?_append, h]
  rfl

theorem find?_map_update {α : Type} (key : α → ℕ) (g : α → α)
    (hg : ∀ x, key (g x) = key x) (k : ℕ) (l : List α) :
    (l.map (fun x => if key x == k then g x else x)).find? (fun x => key x == k)
      = (l.find? (fun x => key x == k)).map g := by
  induction l with
  | nil => rfl
  | cons x l ih =>
    rw [List.map_cons]
    by_cases hx : key x = k
    · rw [if_pos (show (key x == k) = true by simp [hx]),
        @List.find?_cons_of_pos _ (fun y => key y == k) (g x) _ (by simp [hg, hx]),
        @List.find?_cons_of_pos _ (fun y => key y == k) x _ (by simp [hx])]
      rfl
    · rw [if_neg (show ¬ (key x == k) = true by simp [hx]),
        @List.find?_cons_of_neg _ (fun y => key y == k) x _ (by simp [hx]),
        @List.find?_cons_of_neg _ (fun y => key y == k) x _ (by simp [hx])]
      exact ih

theorem find?_map_update_ne {α : Type} (key : α → ℕ) (g : α → α)
    (hg : ∀ x, key (g x) = key x) (k k' : ℕ) (hne : k ≠ k') (l : List α) :
    (l.map (fun x => if key x == k' then g x else x)).find? (fun x => key x == k)
      = l.find? (fun x => key x == k) := by
  induction l with
  | nil => rfl
  | cons x l ih =>
    rw [List.map_cons]
    by_cases hx : key x = k'
    · have hkk : ¬ key x = k := by omega
      rw [if_pos (show (key x == k') = true by simp [hx]),
        @List.find?_cons_of_neg _ (fun y => key y == k) (g x) _ (by simp [hg, hkk]),
        @List.find?_cons_of_neg _ (fun y => key y == k) x _ (by simp [hkk])]
      exact ih
    · rw [if_neg (show ¬ (key x == k') = true by simp [hx])]
      by_cases hxk : key x = k
      · rw [@List.find?_cons_of_pos _ (fun y => key y == k) x _ (by simp [hxk]),
          @List.find?_cons_of_pos _ (fun y => key y == k) x _ (by simp [hxk])]
      · rw [@List.find?_cons_of_neg _ (fun y => key y == k) x _ (by simp [hxk]),
          @List.find?_cons_of_neg _ (fun y => key y == k) x _ (by simp [hxk])]
        exact ih

/-! ## Claim theorems -/

/-- C3: the confirmed-to-completed transition succeeds only when the
current status is exactly "confirmed" and the caller is the owning
provider; any failure leaves the state (the booking's status and all
other fields) unchanged; on success only the status changes, to
"completed". -/
theorem C3_complete_transition (db : DB) (u : Option User) (bid : ℕ) :
    (∀ db', complete_booking u bid db = .ok db' →
      ∃ p b, u = some (User.provider p) ∧
        db.bookings.find? (fun x => x.id == bid) = some b ∧
        b.provider_id = p ∧ b.status = "confirmed" ∧
        db' = { db with bookings := db.bookings.map (fun x =>
          if x.id == bid then { x with status := "completed" } else x) } ∧
        db'.bookings.find? (fun x => x.id == bid) = some { b with status := "completed" })
    ∧ (∀ e, complete_booking u bid db = .error e → step db (Op.complete u bid) = db)
    ∧ (∀ p b, u = some (User.provider p) →
        db.bookings.find? (fun x => x.id == bid) = some b →
        b.provider_id ≠ p ∨ b.status ≠ "confirmed" →
        ∃ e, complete_booking u bid db = .error e) := by
  refine ⟨?_, ?_, ?_⟩
  · intro db' h
    rcases u with _ | u
    · simp [complete_booking] at h
    rcases u with c | p
    · simp [complete_booking] at h
    simp only [complete_booking] at h
    split at h
    next hfind => exact Except.noConfusion h
    next b hfind =>
      split at h
      next => exact Except.noConfusion h
      next hown =>
        split at h
        next => exact Except.noConfusion h
        next hst =>
          injection h with h
          subst h
          refine ⟨p, b, rfl, hfind, not_not.mp hown, not_not.mp hst, rfl, ?_⟩
          show (db.bookings.map _).find? _ = _
          rw [find?_map_update (fun x : Booking => x.id)
            (fun x => { x with status := "completed" }) (fun _ => rfl) bid, hfind]
          rfl
  · intro e h
    simp [step, runOp, h]
  · intro p b hu hb hcond
    subst hu
    by_cases hown : b.provider_id ≠ p
    · exact ⟨.notAuthorized, by simp [complete_booking, hb, hown]⟩
    · have hst : b.status ≠ "confirmed" := by
        rcases hcond with h1 | h1
        · exact absurd h1 hown
        · exact h1
      exact ⟨.wrongState, by simp [complete_booking, hb, hown, hst]⟩

/-- C1: after each successful rating submission, the provider's
averageRating equals the arithmetic mean, rounded to 2 decimals, of the
rating values over all of that provider's bookings with status
"completed" and non-null rating, recomputed by a full scan of the
post-state bookings (so it includes the just-recorded rating);
submitting a rating on a booking whose rating is already set fails and
leaves the state, hence averageRating, unchanged. -/
theorem C1_rating_recompute (db : DB) (c bid v : ℕ) (comment : Option String) :
    (∀ db', rate_booking (some (User.customer c)) bid (some v) comment db = .ok db' →
      ∃ b p', db.bookings.find? (fun x => x.id == bid) = some b ∧
        db'.providers.find? (fun q => q.id == b.provider_id) = some p' ∧
        p'.avg_rating = some (round2 (ratingMean (ratedOf db'.bookings b.provider_id))) ∧
        db'.bookings.find? (fun x => x.id == bid) =
          some { b with rating := some v, rating_comment := comment })
    ∧ (∀ b, db.bookings.find? (fun x => x.id == bid) = some b → b.rating ≠ none →
        (∃ e, rate_booking (some (User.customer c)) bid (some v) comment db = .error e) ∧
        step db (Op.rate (some (User.customer c)) bid (some v) comment) = db) := by
  constructor
  · intro db' h
    simp only [rate_booking] at h
    split at h
    next => exact Except.noConfusion h
    next b hfind =>
      split at h
      next => exact Except.noConfusion h
      next hown =>
        split at h
        next => exact Except.noConfusion h
        next hok =>
          split at h
          next => exact Except.noConfusion h
          next p hp =>
            injection h with h
            subst h
            have hpid : p.id = b.provider_id := by
              have := List.find?_some hp
              simpa using this
            rw [hpid]
            have h1 : (db.providers.map (fun q =>
                if q.id == b.provider_id then
                  { q with avg_rating := some (round2 (ratingMean (ratedOf
                    (db.bookings.map (fun bk => if bk.id == bid then
                      { bk with rating := some v, rating_comment := comment } else bk))
                    b.provider_id))) }
                else q)).find? (fun q => q.id == b.provider_id)
                = some { p with avg_rating := some (round2 (ratingMean (ratedOf
                    (db.bookings.map (fun bk => if bk.id == bid then
                      { bk with rating := some v, rating_comment := comment } else bk))
                    b.provider_id))) } := by
              rw [find?_map_update (fun q : Provider => q.id)
                (fun q => { q with avg_rating := some (round2 (ratingMean (ratedOf
                  (db.bookings.map (fun bk => if bk.id == bid then
                    { bk with rating := some v, rating_comment := comment } else bk))
                  b.provider_id))) }) (fun _ => rfl) b.provider_id, hp]
              rfl
            have h2 : (db.bookings.map (fun bk => if bk.id == bid then
                { bk with rating := some v, rating_comment := comment } else bk)).find?
                (fun x => x.id == bid)
                = some { b with rating := some v, rating_comment := comment } := by
              rw [find?_map_update (fun x : Booking => x.id)
                (fun x => { x with rating := some v, rating_comment := comment })
                (fun _ => rfl) bid, hfind]
              rfl
            exact ⟨b, _, hfind, h1, rfl, h2⟩
  · intro b hb hr
    have herr : ∃ e,
        rate_booking (some (User.customer c)) bid (some v) comment db = .error e := by
      by_cases hown : b.customer_id ≠ c
      · exact ⟨.notAuthorized, by simp [rate_booking, hb, hown]⟩
      · refine ⟨.wrongState, ?_⟩
        have hcond : b.status ≠ "completed" ∨ b.rating ≠ none := Or.inr hr
        simp [rate_booking, hb, hown, hcond]
    refine ⟨herr, ?_⟩
    rcases herr with ⟨e, he⟩
    simp [step, runOp, he]

/-- Witness for C1: customer 7 rates completed booking 8 with 4 stars in
`dbC1`; the theorem's hypotheses are discharged on this concrete run. -/
theorem C1_rating_recompute_witness :
    ∃ b p', dbC1.bookings.find? (fun x => x.id == 8) = some b ∧
      dbC1'.providers.find? (fun q => q.id == b.provider_id) = some p' ∧
      p'.avg_rating = some (round2 (ratingMean (ratedOf dbC1'.bookings b.provider_id))) ∧
      dbC1'.bookings.find? (fun x => x.id == 8) =
        some { b with rating := some 4, rating_comment := none } :=
  (C1_rating_recompute dbC1 7 8 4 none).1 dbC1' (by rfl)

/-- C2: the pending-to-confirmed transition succeeds only when the
caller is the owning customer, the status is exactly "pending" and an
offering exists for (booking.providerId, booking.categoryId); on success
exactly one Payment is appended, with amount equal to that offering's
priceRate, and the status becomes "confirmed"; when no offering exists
the transition fails and no Payment is created. -/
theorem C2_confirm_transition (db : DB) (u : Option User) (bid : ℕ)
    (m : Option String) (txid : String) :
    (∀ db', payment_process u bid m txid db = .ok db' →
      ∃ c b pc mm, u = some (User.customer c) ∧
        db.bookings.find? (fun x => x.id == bid) = some b ∧
        b.customer_id = c ∧ b.status = "pending" ∧
        db.provider_categories.find? (fun q =>
          q.provider_id == b.provider_id && q.category_id == b.category_id) = some pc ∧
        m = some mm ∧
        db'.payments = db.payments ++
          [{ booking_id := bid, amount := pc.price_rate, payment_method := mm,
             transaction_id := txid, status := "successful" }] ∧
        db'.bookings.find? (fun x => x.id == bid) = some { b with status := "confirmed" })
    ∧ (∀ c b, u = some (User.customer c) →
        db.bookings.find? (fun x => x.id == bid) = some b →
        db.provider_categories.find? (fun q =>
          q.provider_id == b.provider_id && q.category_id == b.category_id) = none →
        (∃ e, payment_process u bid m txid db = .error e) ∧
        (step db (Op.confirm u bid m txid)).payments = db.payments) := by
  constructor
  · intro db' h
    rcases u with _ | u
    · simp [payment_process] at h
    rcases u with c | p
    swap
    · simp [payment_process] at h
    simp only [payment_process] at h
    split at h
    next => exact Except.noConfusion h
    next b hfind =>
      split at h
      next => exact Except.noConfusion h
      next hown =>
        split at h
        next => exact Except.noConfusion h
        next hst =>
          split at h
          next => exact Except.noConfusion h
          next pc hpc =>
            split at h
            next => exact Except.noConfusion h
            next mm hm =>
              injection h with h
              subst h
              refine ⟨c, b, pc, hm, rfl, hfind, not_not.mp hown, not_not.mp hst,
                hpc, rfl, rfl, ?_⟩
              show (db.bookings.map _).find? _ = _
              rw [find?_map_update (fun x : Booking => x.id)
                (fun x => { x with status := "confirmed" }) (fun _ => rfl) bid, hfind]
              rfl
  · intro c b hu hb hpc
    subst hu
    have herr : ∃ e, payment_process (some (User.customer c)) bid m txid db = .error e := by
      by_cases hown : b.customer_id ≠ c
      · exact ⟨.notAuthorized, by simp [payment_process, hb, hown]⟩
      by_cases hst : b.status ≠ "pending"
      · exact ⟨.wrongState, by simp [payment_process, hb, hown, hst]⟩
      exact ⟨.invalidBooking, by simp [payment_process, hb, hown, hst, hpc]⟩
    refine ⟨herr, ?_⟩
    rcases herr with ⟨e, he⟩
    simp [step, runOp, he]

/-- Witness for C2: customer 7 pays for pending booking 6 in `dbC2`;
the theorem's hypotheses are discharged on this concrete run. -/
theorem C2_confirm_transition_witness :
    ∃ c b pc mm, (some (User.customer 7) : Option User) = some (User.customer c) ∧
      dbC2.bookings.find? (fun x => x.id == 6) = some b ∧
      b.customer_id = c ∧ b.status = "pending" ∧
      dbC2.provider_categories.find? (fun q =>
        q.provider_id == b.provider_id && q.category_id == b.category_id) = some pc ∧
      (some "card" : Option String) = some mm ∧
      dbC2'.payments = dbC2.payments ++
        [{ booking_id := 6, amount := pc.price_rate, payment_method := mm,
           transaction_id := "HIRE-1", status := "successful" }] ∧
      dbC2'.bookings.find? (fun x => x.id == 6) = some { b with status := "confirmed" } :=
  (C2_confirm_transition dbC2 (some (User.customer 7)) 6 (some "card") "HIRE-1").1
    dbC2' (by rfl)

/-- C6 counterexample: a create request whose date (day 5) is not in the
future (relative to day 1000) does not fail: it succeeds and creates a
booking with status "pending", against the claim that it fails and
creates no booking. -/
theorem C6_counterexample :
    ¬ spec_dateInFuture 5 1000 ∧
    create_booking (some (User.customer 7)) 1 (some 2) (some 3) (some 5)
      (some "09:00-10:00") 9 dbC6 = .ok dbC6' ∧
    dbC6'.bookings = dbC6.bookings ++ [bC6new] ∧
    bC6new.status = "pending" ∧ bC6new.booking_date = 5 :=
  ⟨by unfold spec_dateInFuture; omega, by rfl, by rfl, rfl, rfl⟩

/-- C6 (amended): every successful create produces a booking with status
"pending", appended to the store, and requires a logged-in customer, an
existing provider and all form fields present; but the date is not
required to be in the future: create succeeds for any booking date. -/
theorem C6_create_pending (db : DB) (u : Option User) (pid : ℕ)
    (cat addr : Option ℕ) (d : Option ℤ) (ts : Option String) (nid : ℕ) :
    (∀ db', create_booking u pid cat addr d ts nid db = .ok db' →
      ∃ c catv addrv dv tsv, u = some (User.customer c) ∧ cat = some catv ∧
        addr = some addrv ∧ d = some dv ∧ ts = some tsv ∧
        db' = { db with bookings := db.bookings ++
          [{ id := nid, customer_id := c, provider_id := pid, category_id := catv,
             address_id := addrv, booking_date := dv, time_slot := tsv,
             status := "pending", rating := none, rating_comment := none }] })
    ∧ (∀ c pr catv addrv dv tsv, u = some (User.customer c) →
        db.providers.find? (fun p => p.id == pid) = some pr →
        cat = some catv → addr = some addrv → d = some dv → ts = some tsv →
        create_booking u pid cat addr d ts nid db =
          .ok { db with bookings := db.bookings ++
            [{ id := nid, customer_id := c, provider_id := pid, category_id := catv,
               address_id := addrv, booking_date := dv, time_slot := tsv,
               status := "pending", rating := none, rating_comment := none }] }) := by
  constructor
  · intro db' h
    rcases u with _ | u
    · simp [create_booking] at h
    rcases u with c | p
    swap
    · simp [create_booking] at h
    simp only [create_booking] at h
    split at h
    next => exact Except.noConfusion h
    next pr hpr =>
      split at h
      next catv addrv dv tsv =>
        injection h with h
        subst h
        exact ⟨c, catv, addrv, dv, tsv, rfl, rfl, rfl, rfl, rfl, rfl⟩
      next => exact Except.noConfusion h
  · intro c pr catv addrv dv tsv hu hpr hcat haddr hd hts
    subst hu; subst hcat; subst haddr; subst hd; subst hts
    simp [create_booking, hpr]

/-- Witness for C6: the amended theorem applied to the concrete create
request of `C6_counterexample`, past date included. -/
theorem C6_create_pending_witness :
    create_booking (some (User.customer 7)) 1 (some 2) (some 3) (some 5)
      (some "09:00-10:00") 9 dbC6 =
      .ok { dbC6 with bookings := dbC6.bookings ++ [bC6new] } :=
  (C6_create_pending dbC6 (some (User.customer 7)) 1 (some 2) (some 3) (some 5)
      (some "09:00-10:00") 9).2 7
    { id := 1, experience_years := 4, is_available := true,
      is_verified := true, avg_rating := none }
    2 3 5 "09:00-10:00" rfl (by rfl) rfl rfl rfl rfl

/-- A successful pending-to-confirmed run found the booking with status
exactly "pending" and only rewrote that booking's status. -/
theorem payment_process_ok_shape (u : Option User) (bid : ℕ) (m : Option String)
    (txid : String) (db db' : DB) (h : payment_process u bid m txid db = .ok db') :
    ∃ b0, db.bookings.find? (fun x => x.id == bid) = some b0 ∧
      b0.status = "pending" ∧
      db'.bookings = db.bookings.map (fun x =>
        if x.id == bid then { x with status := "confirmed" } else x) := by
  rcases u with _ | u
  · simp [payment_process] at h
  rcases u with c | p
  swap
  · simp [payment_process] at h
  simp only [payment_process] at h
  split at h
  next => exact Except.noConfusion h
  next b hfind =>
    split at h
    next => exact Except.noConfusion h
    next hown =>
      split at h
      next => exact Except.noConfusion h
      next hst =>
        split at h
        next => exact Except.noConfusion h
        next pc hpc =>
          split at h
          next => exact Except.noConfusion h
          next mm hm =>
            injection h with h
            subst h
            exact ⟨b, hfind, not_not.mp hst, rfl⟩

/-- A successful confirmed-to-completed run found the booking with
status exactly "confirmed" and only rewrote that booking's status. -/
theorem complete_booking_ok_shape (u : Option User) (bid : ℕ) (db db' : DB)
    (h : complete_booking u bid db = .ok db') :
    ∃ b0, db.bookings.find? (fun x => x.id == bid) = some b0 ∧
      b0.status = "confirmed" ∧
      db'.bookings = db.bookings.map (fun x =>
        if x.id == bid then { x with status := "completed" } else x) := by
  rcases u with _ | u
  · simp [complete_booking] at h
  rcases u with c | p
  · simp [complete_booking] at h
  simp only [complete_booking] at h
  split at h
  next => exact Except.noConfusion h
  next b hfind =>
    split at h
    next => exact Except.noConfusion h
    next hown =>
      split at h
      next => exact Except.noConfusion h
      next hst =>
        injection h with h
        subst h
        exact ⟨b, hfind, not_not.mp hst, rfl⟩

/-- A successful cancel run found the booking with status "pending" or
"confirmed" and only rewrote that booking's status. -/
theorem cancel_booking_ok_shape (u : Option User) (bid : ℕ) (db db' : DB)
    (h : cancel_booking u bid db = .ok db') :
    ∃ b0, db.bookings.find? (fun x => x.id == bid) = some b0 ∧
      (b0.status = "pending" ∨ b0.status = "confirmed") ∧
      db'.bookings = db.bookings.map (fun x =>
        if x.id == bid then { x with status := "cancelled" } else x) := by
  rcases u with _ | u
  · simp [cancel_booking] at h
  simp only [cancel_booking] at h
  split at h
  next => exact Except.noConfusion h
  next b hfind =>
    split at h
    next => exact Except.noConfusion h
    next hown =>
      split at h
      next => exact Except.noConfusion h
      next hst =>
        injection h with h
        subst h
        refine ⟨b, hfind, ?_, rfl⟩
        rcases not_and_or.mp hst with h1 | h1
        · exact Or.inl (not_not.mp h1)
        · exact Or.inr (not_not.mp h1)

/-- A successful rating run found the booking with status "completed"
and only rewrote that booking's rating fields (bookings-wise). -/
theorem rate_booking_ok_shape (u : Option User) (bid : ℕ) (r : Option ℕ)
    (cm : Option String) (db db' : DB) (h : rate_booking u bid r cm db = .ok db') :
    ∃ b0, db.bookings.find? (fun x => x.id == bid) = some b0 ∧
      b0.status = "completed" ∧
      ∃ v, r = some v ∧
        db'.bookings = db.bookings.map (fun x =>
          if x.id == bid then { x with rating := some v, rating_comment := cm } else x) := by
  rcases u with _ | u
  · simp [rate_booking] at h
  rcases u with c | p
  swap
  · simp [rate_booking] at h
  simp only [rate_booking] at h
  split at h
  next => exact Except.noConfusion h
  next b hfind =>
    split at h
    next => exact Except.noConfusion h
    next hown =>
      split at h
      next => exact Except.noConfusion h
      next hok =>
        split at h
        next => exact Except.noConfusion h
        next v hv =>
          split at h
          next => exact Except.noConfusion h
          next p hp =>
            injection h with h
            subst h
            exact ⟨b, hfind, (not_or.mp hok).1 |> not_not.mp, hv, rfl, rfl⟩

/-- One request cannot change a cancelled booking: the find? result for
its id is exactly preserved by every operation. -/
theorem step_preserves_cancelled (db : DB) (o : Op) (bid : ℕ) (b : Booking)
    (hb : db.bookings.find? (fun x => x.id == bid) = some b)
    (hs : b.status = "cancelled") :
    (step db o).bookings.find? (fun x => x.id == bid) = some b := by
  cases o with
  | create u pid cat addr d ts nid =>
    cases hr : create_booking u pid cat addr d ts nid db with
    | error e => simpa [step, runOp, hr] using hb
    | ok db' =>
      simp only [step, runOp, hr]
      rcases u with _ | u
      · simp [create_booking] at hr
      rcases u with c | p
      swap
      · simp [create_booking] at hr
      simp only [create_booking] at hr
      split at hr
      next => exact Except.noConfusion hr
      next pr hpr =>
        split at hr
        next catv addrv dv tsv =>
          injection hr with hr
          subst hr
          exact find?_append_some _ _ _ _ hb
        next => exact Except.noConfusion hr
  | confirm u bid' m txid =>
    cases hr : payment_process u bid' m txid db with
    | error e => simpa [step, runOp, hr] using hb
    | ok db' =>
      simp only [step, runOp, hr]
      obtain ⟨b0, hb0, hst0, hbk⟩ := payment_process_ok_shape u bid' m txid db db' hr
      have hne : bid ≠ bid' := by
        intro hEq
        subst hEq
        rw [hb] at hb0
        injection hb0 with hb0
        subst hb0
        rw [hs] at hst0
        exact absurd hst0 (by decide)
      rw [hbk, find?_map_update_ne (fun x : Booking => x.id)
        (fun x => { x with status := "confirmed" }) (fun _ => rfl) bid bid' hne]
      exact hb
  | cancel u bid' =>
    cases hr : cancel_booking u bid' db with
    | error e => simpa [step, runOp, hr] using hb
    | ok db' =>
      simp only [step, runOp, hr]
      obtain ⟨b0, hb0, hst0, hbk⟩ := cancel_booking_ok_shape u bid' db db' hr
      have hne : bid ≠ bid' := by
        intro hEq
        subst hEq
        rw [hb] at hb0
        injection hb0 with hb0
        subst hb0
        rw [hs] at hst0
        rcases hst0 with h1 | h1 <;> exact absurd h1 (by decide)
      rw [hbk, find?_map_update_ne (fun x : Booking => x.id)
        (fun x => { x with status := "cancelled" }) (fun _ => rfl) bid bid' hne]
      exact hb
  | complete u bid' =>
    cases hr : complete_booking u bid' db with
    | error e => simpa [step, runOp, hr] using hb
    | ok db' =>
      simp only [step, runOp, hr]
      obtain ⟨b0, hb0, hst0, hbk⟩ := complete_booking_ok_shape u bid' db db' hr
      have hne : bid ≠ bid' := by
        intro hEq
        subst hEq
        rw [hb] at hb0
        injection hb0 with hb0
        subst hb0
        rw [hs] at hst0
        exact absurd hst0 (by decide)
      rw [hbk, find?_map_update_ne (fun x : Booking => x.id)
        (fun x => { x with status := "completed" }) (fun _ => rfl) bid bid' hne]
      exact hb
  | rate u bid' r cm =>
    cases hr : rate_booking u bid' r cm db with
    | error e => simpa [step, runOp, hr] using hb
    | ok db' =>
      simp only [step, runOp, hr]
      obtain ⟨b0, hb0, hst0, v, hv, hbk⟩ := rate_booking_ok_shape u bid' r cm db db' hr
      have hne : bid ≠ bid' := by
        intro hEq
        subst hEq
        rw [hb] at hb0
        injection hb0 with hb0
        subst hb0
        rw [hs] at hst0
        exact absurd hst0 (by decide)
      rw [hbk, find?_map_update_ne (fun x : Booking => x.id)
        (fun x => { x with rating := some v, rating_comment := cm }) (fun _ => rfl)
        bid bid' hne]
      exact hb

/-- C7: the state "cancelled" is terminal: once a booking is cancelled,
no sequence of requests (confirm, complete, cancel, rate, create) ever
changes it again; the very same booking row is still found afterwards,
so its status is still "cancelled". -/
theorem C7_cancelled_terminal (db : DB) (bid : ℕ) (b : Booking)
    (hb : db.bookings.find? (fun x => x.id == bid) = some b)
    (hs : b.status = "cancelled") (ops : List Op) :
    (ops.foldl step db).bookings.find? (fun x => x.id == bid) = some b := by
  induction ops generalizing db with
  | nil => exact hb
  | cons o ops ih =>
    exact ih (step db o) (step_preserves_cancelled db o bid b hb hs)

/-- Witness for C7: cancelled booking 9 in `dbC7` survives the whole
`opsC7` sequence of transition attempts unchanged. -/
theorem C7_cancelled_terminal_witness :
    (opsC7.foldl step dbC7).bookings.find? (fun x => x.id == 9) = some bC7 :=
  C7_cancelled_terminal dbC7 9 bC7 (by rfl) rfl opsC7

/-- Witness for C3: provider 1 completes confirmed booking 5 in `dbC3`;
the theorem's hypotheses are discharged on this concrete run. -/
theorem C3_complete_transition_witness :
    ∃ p b, (some (User.provider 1) : Option User) = some (User.provider p) ∧
      dbC3.bookings.find? (fun x => x.id == 5) = some b ∧
      b.provider_id = p ∧ b.status = "confirmed" ∧
      dbC3' = { dbC3 with bookings := dbC3.bookings.map (fun x =>
        if x.id == 5 then { x with status := "completed" } else x) } ∧
      dbC3'.bookings.find? (fun x => x.id == 5) = some { b with status := "completed" } :=
  (C3_complete_transition dbC3 (some (User.provider 1)) 5).1 dbC3' (by rfl)

/-- Folding the dict-building loop over offerings that all belong to one
category appends every price to that category's single bucket, in
order. -/
theorem foldl_addPrice_single (cid : ℕ) (pcs : List ProviderCategory) :
    ∀ acc : List ℚ, (∀ pc ∈ pcs, pc.category_id = cid) →
      pcs.foldl addPrice [(cid, acc)]
        = [(cid, acc ++ pcs.map (fun pc => pc.price_rate))] := by
  induction pcs with
  | nil => intro acc _; simp
  | cons pc rest ih =>
    intro acc h
    have hcid : pc.category_id = cid := h pc (by simp)
    have hstep : addPrice [(cid, acc)] pc = [(cid, acc ++ [pc.price_rate])] := by
      simp [addPrice, hcid]
    rw [List.foldl_cons, hstep,
      ih (acc ++ [pc.price_rate]) (fun q hq => h q (by simp [hq]))]
    simp

/-- The avg_prices dict built from a nonempty single-category offering
list maps that category to the arithmetic mean of the priceRates. -/
theorem avgPricesOf_lookup (pcs : List ProviderCategory) (cid : ℕ)
    (hcat : ∀ pc ∈ pcs, pc.category_id = cid) (hne : pcs ≠ []) :
    lookupQ (avgPricesOf pcs) cid
      = some ((pcs.map (fun pc => pc.price_rate)).sum / pcs.length) := by
  cases pcs with
  | nil => exact absurd rfl hne
  | cons pc rest =>
    have hcid : pc.category_id = cid := hcat pc (by simp)
    have h0 : addPrice [] pc = [(cid, [pc.price_rate])] := by simp [addPrice, hcid]
    unfold avgPricesOf
    rw [List.foldl_cons, h0,
      foldl_addPrice_single cid rest [pc.price_rate] (fun q hq => hcat q (by simp [hq]))]
    simp [lookupQ, Nat.add_comm]

/-- C8: within one matching call, the category average price handed to
every scoring call is the arithmetic mean of priceRate over all
offerings retrieved for the requested category in step (a) — including
offerings of providers the availability/verification filter later drops;
the same once-computed avg_prices dict is shared by all providers. -/
theorem C8_category_avg (customer_address : Option Address) (cid limit : ℕ)
    (pc_table : List ProviderCategory) (provider_table : List Provider)
    (addrs : List Address) (pcs : List ProviderCategory)
    (hpcs : pcs = pc_table.filter (fun pc => pc.category_id == cid))
    (hne : pcs ≠ []) :
    lookupQ (avgPricesOf pcs) cid
      = some ((pcs.map (fun pc => pc.price_rate)).sum / pcs.length) ∧
    find_matching_providers customer_address cid limit pc_table provider_table addrs
      = ((sortDesc ((eligibleProviders provider_table pcs).map (fun p =>
          (p, calculate_provider_score p customer_address cid (avgPricesOf pcs)
            pc_table addrs)))).map Prod.fst).take limit := by
  subst hpcs
  constructor
  · refine avgPricesOf_lookup _ cid (fun pc hpc => ?_) hne
    have := (List.mem_filter.mp hpc).2
    simpa using this
  · simp only [find_matching_providers]
    rw [if_neg hne]
    by_cases hP : eligibleProviders provider_table
        (pc_table.filter (fun pc => pc.category_id == cid)) = []
    · rw [if_pos hP, hP]
      simp [sortDesc]
    · rw [if_neg hP]

/-- Witness for C8: the two-offering pool `pcsC8` for category 7; the
dict value is the mean (100 + 50) / 2. -/
theorem C8_category_avg_witness :
    lookupQ (avgPricesOf pcsC8) 7
      = some ((pcsC8.map (fun pc => pc.price_rate)).sum / pcsC8.length) ∧
    find_matching_providers none 7 5 pcsC8 [] []
      = ((sortDesc ((eligibleProviders [] pcsC8).map (fun p =>
          (p, calculate_provider_score p none 7 (avgPricesOf pcsC8)
            pcsC8 [])))).map Prod.fst).take 5 :=
  C8_category_avg none 7 5 pcsC8 [] [] pcsC8 (by rfl) (by simp [pcsC8])

/-- Everything in `insertDesc a l` is `a` or came from `l`. -/
theorem mem_insertDesc (a y : Provider × ℚ) (l : List (Provider × ℚ))
    (h : y ∈ insertDesc a l) : y = a ∨ y ∈ l := by
  induction l with
  | nil => simpa [insertDesc] using h
  | cons x l ih =>
    simp only [insertDesc] at h
    by_cases hc : x.2 ≤ a.2
    · rw [if_pos hc] at h
      rcases List.mem_cons.mp h with h1 | h1
      · exact Or.inl h1
      · exact Or.inr h1
    · rw [if_neg hc] at h
      rcases List.mem_cons.mp h with h1 | h1
      · exact Or.inr (by simp [h1])
      · rcases ih h1 with h2 | h2
        · exact Or.inl h2
        · exact Or.inr (by simp [h2])

/-- Inserting into a score-descending list keeps it score-descending. -/
theorem sorted_insertDesc (a : Provider × ℚ) (l : List (Provider × ℚ))
    (h : List.Pairwise (fun u v : Provider × ℚ => v.2 ≤ u.2) l) :
    List.Pairwise (fun u v : Provider × ℚ => v.2 ≤ u.2) (insertDesc a l) := by
  induction l with
  | nil => simp [insertDesc]
  | cons x l ih =>
    rcases List.pairwise_cons.mp h with ⟨hx, hl⟩
    simp only [insertDesc]
    by_cases hc : x.2 ≤ a.2
    · rw [if_pos hc]
      refine List.Pairwise.cons ?_ h
      intro y hy
      rcases List.mem_cons.mp hy with h1 | h1
      · rw [h1]; exact hc
      · exact le_trans (hx y h1) hc
    · rw [if_neg hc]
      refine List.Pairwise.cons ?_ (ih hl)
      intro y hy
      rcases mem_insertDesc a y l hy with h1 | h1
      · rw [h1]; exact le_of_lt (lt_of_not_le hc)
      · exact hx y h1

/-- The stable descending sort produces a score-descending sequence. -/
theorem sortDesc_sorted (l : List (Provider × ℚ)) :
    List.Pairwise (fun u v : Provider × ℚ => v.2 ≤ u.2) (sortDesc l) := by
  induction l with
  | nil => simp [sortDesc]
  | cons x l ih => exact sorted_insertDesc x (sortDesc l) ih

/-- Insertion is stable: the elements of any one score either gain the
inserted element at the front (elements passed over have strictly
greater score) or are untouched. -/
theorem filter_insertDesc (a : Provider × ℚ) (c : ℚ) (l : List (Provider × ℚ)) :
    (insertDesc a l).filter (fun x => x.2 == c)
      = if a.2 == c then a :: l.filter (fun x => x.2 == c)
        else l.filter (fun x => x.2 == c) := by
  induction l with
  | nil =>
    by_cases hac : a.2 = c
    · have hb : (a.2 == c) = true := by simp [hac]
      simp [insertDesc, List.filter, hb, hac]
    · have hb : (a.2 == c) = false := by simp [hac]
      simp [insertDesc, List.filter, hb, hac]
  | cons x l ih =>
    simp only [insertDesc]
    by_cases hc : x.2 ≤ a.2
    · rw [if_pos hc]
      by_cases hac : a.2 = c
      · have hb : (a.2 == c) = true := by simp [hac]
        simp [List.filter, hb, hac]
      · have hb : (a.2 == c) = false := by simp [hac]
        simp [List.filter, hb, hac]
    · rw [if_neg hc]
      have hxa : a.2 < x.2 := lt_of_not_le hc
      by_cases hac : a.2 = c
      · have hxc : ¬ x.2 = c := by rw [← hac]; exact ne_of_gt hxa
        have hb : (a.2 == c) = true := by simp [hac]
        have hbx : (x.2 == c) = false := by simp [hxc]
        simp [List.filter_cons, ih, hb, hbx, hac]
      · have hb : (a.2 == c) = false := by simp [hac]
        simp [List.filter_cons, ih, hb, hac]

/-- Stability of the stable descending sort: for every score value, the
subsequence of elements carrying that score is preserved exactly, in
input order. -/
theorem filter_sortDesc (c : ℚ) (l : List (Provider × ℚ)) :
    (sortDesc l).filter (fun x => x.2 == c) = l.filter (fun x => x.2 == c) := by
  induction l with
  | nil => rfl
  | cons x l ih =>
    show (insertDesc x (sortDesc l)).filter (fun x => x.2 == c) = _
    rw [filter_insertDesc, ih]
    by_cases hxc : x.2 = c
    · have hb : (x.2 == c) = true := by simp [hxc]
      simp [List.filter_cons, hb]
    · have hb : (x.2 == c) = false := by simp [hxc]
      simp [List.filter_cons, hb]

/-- C5 (amended): the matcher's output is sorted descending by computed
score, but ties are not broken by provider id: the sort is stable, so
equal-score providers keep the order in which the provider table
yielded them, and the output depends on that retrieval order. -/
theorem C5_sort_stable (customer_address : Option Address) (cid limit : ℕ)
    (pc_table : List ProviderCategory) (provider_table : List Provider)
    (addrs : List Address) (scored : List (Provider × ℚ))
    (hscored : scored = (eligibleProviders provider_table
        (pc_table.filter (fun pc => pc.category_id == cid))).map (fun p =>
        (p, calculate_provider_score p customer_address cid
          (avgPricesOf (pc_table.filter (fun pc => pc.category_id == cid)))
          pc_table addrs))) :
    List.Pairwise (fun u v : Provider × ℚ => v.2 ≤ u.2) (sortDesc scored) ∧
    (∀ c : ℚ, (sortDesc scored).filter (fun x => x.2 == c)
        = scored.filter (fun x => x.2 == c)) ∧
    find_matching_providers customer_address cid limit pc_table provider_table addrs
      = ((sortDesc scored).map Prod.fst).take limit := by
  subst hscored
  refine ⟨sortDesc_sorted _, fun c => filter_sortDesc c _, ?_⟩
  simp only [find_matching_providers]
  by_cases hne : pc_table.filter (fun pc => pc.category_id == cid) = []
  · rw [if_pos hne, hne]
    simp [eligibleProviders, sortDesc]
  · rw [if_neg hne]
    by_cases hP : eligibleProviders provider_table
        (pc_table.filter (fun pc => pc.category_id == cid)) = []
    · rw [if_pos hP, hP]
      simp [sortDesc]
    · rw [if_neg hP]

/-- Witness for C5: the amended theorem at the two-offering pool
`pcsC8`, an empty provider table and an empty address table. -/
theorem C5_sort_stable_witness :
    List.Pairwise (fun u v : Provider × ℚ => v.2 ≤ u.2)
      (sortDesc ((eligibleProviders []
        (pcsC8.filter (fun pc => pc.category_id == 7))).map (fun p =>
        (p, calculate_provider_score p none 7
          (avgPricesOf (pcsC8.filter (fun pc => pc.category_id == 7)))
          pcsC8 [])))) ∧
    (∀ c : ℚ, (sortDesc ((eligibleProviders []
        (pcsC8.filter (fun pc => pc.category_id == 7))).map (fun p =>
        (p, calculate_provider_score p none 7
          (avgPricesOf (pcsC8.filter (fun pc => pc.category_id == 7)))
          pcsC8 [])))).filter (fun x => x.2 == c)
        = ((eligibleProviders []
        (pcsC8.filter (fun pc => pc.category_id == 7))).map (fun p =>
        (p, calculate_provider_score p none 7
          (avgPricesOf (pcsC8.filter (fun pc => pc.category_id == 7)))
          pcsC8 []))).filter (fun x => x.2 == c)) ∧
    find_matching_providers none 7 5 pcsC8 [] []
      = ((sortDesc ((eligibleProviders []
        (pcsC8.filter (fun pc => pc.category_id == 7))).map (fun p =>
        (p, calculate_provider_score p none 7
          (avgPricesOf (pcsC8.filter (fun pc => pc.category_id == 7)))
          pcsC8 [])))).map Prod.fst).take 5 :=
  C5_sort_stable none 7 5 pcsC8 [] [] _ rfl

/-- C5 counterexample: providers 1 and 2 tie (both score 50 for
category 7), yet the matcher's output follows the provider-table
retrieval order, not ascending provider id: retrieved as [2, 1] it
returns [2, 1] — the higher id first — and retrieved as [1, 2] it
returns [1, 2], so the ordering is not independent of retrieval
order. -/
theorem C5_counterexample :
    calculate_provider_score pC5a none 7 (avgPricesOf pcsC5) pcsC5 [] =
      calculate_provider_score pC5b none 7 (avgPricesOf pcsC5) pcsC5 [] ∧
    pC5a.id < pC5b.id ∧
    find_matching_providers none 7 5 pcsC5 [pC5b, pC5a] [] = [pC5b, pC5a] ∧
    find_matching_providers none 7 5 pcsC5 [pC5a, pC5b] [] = [pC5a, pC5b] := by
  have havg : avgPricesOf pcsC5 = [(7, 100)] := by
    norm_num [avgPricesOf, addPrice, pcsC5]
  have hsa : calculate_provider_score pC5a none 7 (avgPricesOf pcsC5) pcsC5 [] = 50 := by
    rw [havg]
    simp [calculate_provider_score, ratingScore, experienceScore, priceScore,
      distanceBonus, pC5a, pcsC5, lookupQ]
    norm_num
  have hsb : calculate_provider_score pC5b none 7 (avgPricesOf pcsC5) pcsC5 [] = 50 := by
    rw [havg]
    simp [calculate_provider_score, ratingScore, experienceScore, priceScore,
      distanceBonus, pC5b, pcsC5, lookupQ]
    norm_num
  have hfilter : pcsC5.filter (fun pc => pc.category_id == 7) = pcsC5 := rfl
  have hsort : sortDesc [(pC5b, (50 : ℚ)), (pC5a, 50)] = [(pC5b, 50), (pC5a, 50)] := by
    simp [sortDesc, insertDesc]
  have hsort2 : sortDesc [(pC5a, (50 : ℚ)), (pC5b, 50)] = [(pC5a, 50), (pC5b, 50)] := by
    simp [sortDesc, insertDesc]
  refine ⟨hsa.trans hsb.symm, by norm_num [pC5a, pC5b], ?_, ?_⟩
  · simp only [find_matching_providers]
    rw [hfilter, if_neg (show ¬ (pcsC5 = []) by simp [pcsC5]),
      show eligibleProviders [pC5b, pC5a] pcsC5 = [pC5b, pC5a] from rfl,
      if_neg (show ¬ ([pC5b, pC5a] = ([] : List Provider)) by simp)]
    rw [List.map_cons, List.map_cons, List.map_nil, hsa, hsb, hsort]
    rfl
  · simp only [find_matching_providers]
    rw [hfilter, if_neg (show ¬ (pcsC5 = []) by simp [pcsC5]),
      show eligibleProviders [pC5a, pC5b] pcsC5 = [pC5a, pC5b] from rfl,
      if_neg (show ¬ ([pC5a, pC5b] = ([] : List Provider)) by simp)]
    rw [List.map_cons, List.map_cons, List.map_nil, hsa, hsb, hsort2]
    rfl

/-- C9 counterexample: the distinct valid coordinates (90, 0) and
(90, 50) — two points at the north pole — have haversine distance
exactly 0, so "distance zero iff a == b" fails in the only-if
direction. -/
theorem C9_counterexample :
    calculate_distance 90 0 90 50 = 0 ∧
    ¬ (((90 : ℝ), (0 : ℝ)) = ((90 : ℝ), (50 : ℝ))) := by
  constructor
  · have h90 : (90 : ℝ) * Real.pi / 180 = Real.pi / 2 := by ring
    simp only [calculate_distance, radians, h90, sub_self, zero_div, Real.sin_zero,
      Real.cos_pi_div_two]
    norm_num [Real.sqrt_zero, Real.arcsin_zero]
  · intro h
    have : (0 : ℝ) = 50 := congrArg Prod.snd h
    norm_num at this

/-- C9 (amended): the haversine distance is symmetric, and it is zero on
equal coordinates; but distance zero does not imply equal coordinates
(two distinct points at a pole are at distance 0, see the
counterexample). -/
theorem C9_distance_symm_zero :
    (∀ lat1 lon1 lat2 lon2 : ℝ,
      calculate_distance lat1 lon1 lat2 lon2 = calculate_distance lat2 lon2 lat1 lon1) ∧
    (∀ lat lon : ℝ, calculate_distance lat lon lat lon = 0) := by
  constructor
  · intro lat1 lon1 lat2 lon2
    simp only [calculate_distance, radians]
    have hsin : ∀ x y : ℝ, Real.sin ((x - y) / 2) ^ 2 = Real.sin ((y - x) / 2) ^ 2 := by
      intro x y
      rw [show (x - y) / 2 = -((y - x) / 2) by ring, Real.sin_neg]
      ring
    rw [hsin (lat2 * Real.pi / 180) (lat1 * Real.pi / 180),
      hsin (lon2 * Real.pi / 180) (lon1 * Real.pi / 180),
      mul_comm (Real.cos (lat1 * Real.pi / 180)) (Real.cos (lat2 * Real.pi / 180))]
  · intro lat lon
    simp only [calculate_distance, radians, sub_self, zero_div, Real.sin_zero]
    norm_num [Real.sqrt_zero, Real.arcsin_zero]

/-- C4 counterexample: with offering price 100 and category average 100
(price ratio exactly 1), the price component of the score is 30, not the
claimed 15: ratio 1 fails the r < 1 test and lands on the other branch,
max(0, 30 * (2 - 1)) = 30. -/
theorem C4_counterexample :
    priceScore pC4 7 [(7, 100)] [pcC4] = 30 ∧
    ¬ priceScore pC4 7 [(7, 100)] [pcC4] = 15 := by
  have h : priceScore pC4 7 [(7, 100)] [pcC4] = 30 := by
    simp only [priceScore, pC4, pcC4, lookupQ]
    norm_num
  exact ⟨h, by rw [h]; norm_num⟩

/-- C4 (amended): whenever the provider has an offering for the
requested category at a price equal to the known positive category
average (ratio r exactly 1), the price component of the score equals
max(0, 30 * (2 - 1)) = 30: r == 1 is routed to the r ≥ 1 branch. -/
theorem C4_price_ratio_one (p : Provider) (cid : ℕ) (avg_prices : List (ℕ × ℚ))
    (pc_table : List ProviderCategory) (pc : ProviderCategory) (avg : ℚ)
    (hpc : pc_table.find? (fun q =>
      q.provider_id == p.id && q.category_id == cid) = some pc)
    (havg : lookupQ avg_prices cid = some avg)
    (hpos : 0 < avg) (heq : pc.price_rate = avg) :
    priceScore p cid avg_prices pc_table = 30 := by
  simp only [priceScore, hpc, havg, heq]
  rw [if_pos hpos, div_self (ne_of_gt hpos), if_neg (by norm_num : ¬ (1 : ℚ) < 1)]
  norm_num

/-- Witness for C4: the concrete ratio-one pool of the counterexample,
run through the amended theorem. -/
theorem C4_price_ratio_one_witness :
    priceScore pC4 7 [(7, 100)] [pcC4] = 30 :=
  C4_price_ratio_one pC4 7 [(7, 100)] [pcC4] pcC4 100 (by rfl) (by rfl)
    (by norm_num) rfl

/-- C10: when either coordinate of the customer address, or either
coordinate of the provider's address row, is exactly 0, the scoring
function awards no proximity bonus even though both locations are
present: the provider's score equals its score with the customer
location entirely unknown. -/
theorem C10_zero_coordinate (p : Provider) (ca : Address) (cid : ℕ)
    (avg_prices : List (ℕ × ℚ)) (pc_table : List ProviderCategory)
    (addrs : List Address) (clat clon plat plon : ℚ) (pa : Address)
    (hclat : ca.latitude = some clat) (hclon : ca.longitude = some clon)
    (hpa : addrs.find? (fun a => a.provider_id == some p.id) = some pa)
    (hplat : pa.latitude = some plat) (hplon : pa.longitude = some plon)
    (hzero : clat = 0 ∨ clon = 0 ∨ plat = 0 ∨ plon = 0) :
    calculate_provider_score p (some ca) cid avg_prices pc_table addrs =
      calculate_provider_score p none cid avg_prices pc_table addrs := by
  have hbonus : distanceBonus p (some ca) addrs = 0 := by
    simp only [distanceBonus, hclat, hclon]
    by_cases hc : clat = 0 ∨ clon = 0
    · rw [if_pos hc]
    · rw [if_neg hc]
      simp only [hpa, hplat, hplon]
      have hp2 : plat = 0 ∨ plon = 0 := by
        rcases hzero with h | h | h | h
        · exact absurd (Or.inl h) hc
        · exact absurd (Or.inr h) hc
        · exact Or.inl h
        · exact Or.inr h
      rw [if_pos hp2]
  unfold calculate_provider_score
  rw [hbonus, show distanceBonus p none addrs = 0 from rfl]

/-- Witness for C10: customer address `caC10` has latitude exactly 0 and
provider 1 has the fully-located address `paC10`; the score equals the
no-customer-location score. -/
theorem C10_zero_coordinate_witness :
    calculate_provider_score pC4 (some caC10) 7 [] [] [paC10] =
      calculate_provider_score pC4 none 7 [] [] [paC10] :=
  C10_zero_coordinate pC4 caC10 7 [] [] [paC10] 0 10 5 6 paC10
    rfl rfl (by rfl) rfl rfl (Or.inl rfl)

end HIRE
